import Mathlib

/-!
Verification of the drumlog practice-journal application (`src/app.py`).

The app keeps one CSV-backed practice log (`practice_log.csv`), with a
single-generation backup file (`practice_log.csv.backup`).  We shallowly embed:

* the row/file data model (a row has Date, Exercise/Song, Minutes, BPM, Notes);
* `create_backup`, `safe_read_csv`, `round_to_minutes`, `validate_csv_file`;
* the module-level save handler (validation + append), the CSV import handler
  (validation + sanitization + wholesale replace) and the export download;
* the display-time data cleanup (`pd.to_numeric`/`to_datetime` with
  `errors='coerce'` followed by `dropna(subset=..., how='all')`);
* `get_recent_exercises_with_bpm` (most-recent-BPM-per-exercise aggregate).

File-system state is a pair of optional file contents (data file, backup file);
a `none` content models an absent file.  Machine floats that only carry exact
integer counts are modelled as `Int`; the stopwatch's elapsed seconds are
modelled as `ℚ` (`time.time()` differences), with Python's banker rounding
`round` embedded explicitly.
-/

namespace Drumlog

/-- One row of the practice log, as the save handler writes it
(`{'Date': datum, 'Exercise/Song': ..., 'Minutes': ..., 'BPM': ..., 'Notes': ...}`,
`src/app.py` lines 396-402).  `Date` stays a string: `pd.read_csv` is called
without `parse_dates`, so the `Date` column is read back as strings. -/
structure Row where
  date : String
  exercise : String
  minutes : Int
  bpm : Int
  notes : String
  deriving DecidableEq, Repr

/-- The persistent state the app touches: `practice_log.csv` and
`practice_log.csv.backup`.  `none` = the file does not exist. -/
structure FS where
  data : Option (List Row)
  backup : Option (List Row)
  deriving DecidableEq, Repr

/-- `create_backup` (`src/app.py` lines 152-162): if the data file exists it is
copied over the backup file; if it does not exist, nothing happens. -/
def create_backup (s : FS) : FS :=
  match s.data with
  | some c => { s with backup := some c }
  | none => s

/-- `safe_read_csv` (`src/app.py` lines 142-150): a missing file reads as an
empty table. -/
def safe_read_csv (s : FS) : List Row :=
  s.data.getD []

/-- `MAX_FILE_SIZE = 10 * 1024 * 1024` (`src/app.py` line 10). -/
def MAX_FILE_SIZE : Nat := 10 * 1024 * 1024

/-- Python's `str.strip()`: drop leading and trailing whitespace
characters. -/
def pyStrip (s : String) : String :=
  String.mk (((s.toList.dropWhile Char.isWhitespace).reverse.dropWhile
    Char.isWhitespace).reverse)

/-- Python's `str.strip()[:100]` applied to the exercise field
(`src/app.py` line 371).  Slicing is by characters, as in Python. -/
def sanitize_exercise (s : String) : String :=
  String.mk ((pyStrip s).toList.take 100)

/-- `notizen.strip()[:500] if notizen else ''` (`src/app.py` line 372).
When `notizen` is falsy (empty) the result is `''`, which coincides with
stripping and slicing the empty string. -/
def sanitize_notes (s : String) : String :=
  String.mk ((pyStrip s).toList.take 500)

/-- The save handler (`src/app.py` lines 368-412), given the submitted form
fields.  Returns the new file-system state and whether the entry was saved.
Guard structure follows the source: the `uebung.strip()` truthiness gate
(line 368), `minuten < 1` (line 375), `bpm < 20 or bpm > 400` (line 377);
only then `create_backup`, `safe_read_csv`, append, `to_csv` (lines 381-405).
The duplicate-song branch (lines 387-394) only emits an informational message
and changes no data, so it contributes nothing to the state. -/
def saveStep (datum uebung : String) (minuten bpm : Int) (notizen : String)
    (s : FS) : FS × Bool :=
  if pyStrip uebung = "" then (s, false)
  else if minuten < 1 then (s, false)
  else if bpm < 20 ∨ bpm > 400 then (s, false)
  else
    ({ create_backup s with
        data := some (safe_read_csv (create_backup s) ++
          [⟨datum, sanitize_exercise uebung, minuten, bpm,
            sanitize_notes notizen⟩]) }, true)

/-- An uploaded file as the import handler sees it: its name and byte size
(checked by `validate_csv_file`), the header columns, and its rows.  Rows are
given in the typed schema; the column-presence check operates on `cols`. -/
structure Upload where
  name : String
  size : Nat
  cols : List String
  rows : List Row

/-- Python's `str.lower()`, character by character. -/
def strToLower (s : String) : String :=
  String.mk (s.toList.map Char.toLower)

/-- `validate_csv_file` (`src/app.py` lines 12-25): reject files over
`MAX_FILE_SIZE` bytes and files whose lowercased name does not end in
`.csv` (`uploaded_file.name.lower().endswith('.csv')`). -/
def validate_csv_file (u : Upload) : Bool :=
  decide (u.size ≤ MAX_FILE_SIZE)
    && ".csv".toList.isSuffixOf (strToLower u.name).toList

/-- `required_columns` (`src/app.py` line 527). -/
def required_columns : List String :=
  ["Date", "Exercise/Song", "Minutes", "BPM", "Notes"]

/-- `uploaded_df[col].astype(str).str[:100]` for a text cell
(`src/app.py` line 534).  A cell that was empty in the CSV is read by pandas
as NaN, and `astype(str)` turns NaN into the string `"nan"`; a non-empty cell
is unchanged by `astype(str)`.  Then the first 100 characters are kept. -/
def sanitizeText (s : String) : String :=
  String.mk ((if s = "" then "nan" else s).toList.take 100)

/-- The per-row effect of the import sanitization loop
(`src/app.py` lines 532-534): both `Exercise/Song` and `Notes` pass through
`astype(str).str[:100]`; the other columns are untouched. -/
def sanitizeRow (r : Row) : Row :=
  { r with exercise := sanitizeText r.exercise, notes := sanitizeText r.notes }

/-- The CSV import handler (`src/app.py` lines 511-545): validate the file
(size, `.csv` suffix), reject more than 10000 rows, require the five schema
columns, sanitize the text columns, back up the current data file, and replace
it wholesale.  Returns the new state and whether the import was accepted. -/
def importStep (u : Upload) (s : FS) : FS × Bool :=
  if ¬ validate_csv_file u then (s, false)
  else if u.rows.length > 10000 then (s, false)
  else if ¬ required_columns.all (fun c => decide (c ∈ u.cols)) then (s, false)
  else
    ({ create_backup s with data := some (u.rows.map sanitizeRow) }, true)

/-- States of the file system reachable from a fresh install (no data file,
no backup file) by save and import interactions, successful or not. -/
inductive Reachable : FS → Prop
  | init : Reachable ⟨none, none⟩
  | save (d u : String) (m b : Int) (n : String) {s : FS} :
      Reachable s → Reachable (saveStep d u m b n s).1
  | imp (up : Upload) {s : FS} :
      Reachable s → Reachable (importStep up s).1

/-! ### Display-time data cleanup (`src/app.py` lines 425-435) -/

/-- A row after the display-time type coercion: `pd.to_numeric(df['Minutes'],
errors='coerce')`, `pd.to_numeric(df['BPM'], errors='coerce')`,
`pd.to_datetime(df['Date'], errors='coerce')`.  `none` models a cell the
coercion turned into NaN/NaT. -/
structure CoercedRow where
  date : Option String
  exercise : String
  minutes : Option Int
  bpm : Option Int
  notes : String
  deriving DecidableEq, Repr

/-- Digits of a decimal numeral, most significant first, as a natural
number. -/
def ofDigits (l : List Char) : Nat :=
  l.foldl (fun n c => n * 10 + (c.toNat - 48)) 0

/-- `pd.to_numeric(cell, errors='coerce')` restricted to integer-formatted
cells: parses an optionally negated decimal numeral, and yields `none`
(modelling NaN) for any non-numeric cell. -/
def to_numeric (s : String) : Option Int :=
  match s.toList with
  | [] => none
  | '-' :: ds =>
      if ds ≠ [] ∧ ds.all Char.isDigit then some (-(ofDigits ds : Int)) else none
  | ds =>
      if ds.all Char.isDigit then some (ofDigits ds : Int) else none

/-- `df.dropna(subset=['Date', 'Minutes', 'BPM'], how='all')`
(`src/app.py` line 431): a row is dropped only when ALL of the three listed
cells are NaN; it is kept as soon as one of them coerced. -/
def cleanupLoad (rows : List CoercedRow) : List CoercedRow :=
  rows.filter (fun r => r.date.isSome || r.minutes.isSome || r.bpm.isSome)

/-- Modelled from the spec's words, for comparison with `cleanupLoad`:
"load drops each row that fails type coercion (non-numeric Minutes,
non-numeric BPM, or unparseable Date) while keeping every row whose fields all
coerce" — i.e. a row is kept exactly when all three cells coerced. -/
def cleanupLoadSpec (rows : List CoercedRow) : List CoercedRow :=
  rows.filter (fun r => r.date.isSome && r.minutes.isSome && r.bpm.isSome)

/-! ### Most-recent-BPM-per-exercise aggregate (`src/app.py` lines 117-140) -/

/-- Strict lexicographic order on character lists by code point: how Python /
pandas compare the `Date` strings of this log (`read_csv` without
`parse_dates` leaves `Date` as strings). -/
def lexLt : List Char → List Char → Bool
  | [], [] => false
  | [], _ :: _ => true
  | _ :: _, [] => false
  | a :: as, b :: bs =>
      if a.toNat < b.toNat then true
      else if b.toNat < a.toNat then false
      else lexLt as bs

/-- `Date`-string comparison used by `sort_values('Date', ...)`. -/
def dateLt (a b : String) : Bool :=
  lexLt a.toList b.toList

/-- Comparison step of `sort_values('Date', ascending=False)` followed by
`.iloc[0]`: the retained row is one whose `Date` string is maximal (on equal
dates the sort's tie order is unspecified in pandas; this fold keeps the
earlier row). -/
def pick (b r : Row) : Row :=
  if dateLt b.date r.date then r else b

/-- `df[df['Exercise/Song'] == song].sort_values('Date', ascending=False)`
then `.iloc[0]` (`src/app.py` lines 126-128): the entry with maximal `Date`,
or `none` for an empty selection. -/
def latestEntry : List Row → Option Row
  | [] => none
  | x :: xs => some (xs.foldl pick x)

/-- `df['Exercise/Song'].dropna().unique()` (`src/app.py` line 125):
the distinct exercise names in order of first appearance, accumulating the
names already seen. -/
def uniqueFirstAux (seen : List String) : List String → List String
  | [] => []
  | x :: xs =>
      if x ∈ seen then uniqueFirstAux seen xs
      else x :: uniqueFirstAux (x :: seen) xs

/-- `df['Exercise/Song'].dropna().unique()`: distinct names in order of first
appearance. -/
def uniqueFirst (l : List String) : List String :=
  uniqueFirstAux [] l

/-- Python's `l[-10:]` at the Lean level. -/
def lastN (n : Nat) (l : List α) : List α :=
  l.drop (l.length - n)

/-- `get_recent_exercises_with_bpm` (`src/app.py` lines 117-140): read the
data file (missing file or read error gives `[]`), and for each distinct
exercise name pick the BPM of its maximal-`Date` row; return the last 10.
In this typed model the schema columns are always present and BPM cells are
never NaN, so the column guard and the NaN-BPM default of 60 do not fire. -/
def get_recent_exercises_with_bpm (s : FS) : List (String × Int) :=
  match s.data with
  | none => []
  | some rows =>
      if rows.isEmpty then []
      else
        lastN 10 ((uniqueFirst (rows.map Row.exercise)).filterMap fun song =>
          (latestEntry (rows.filter fun r => r.exercise = song)).map
            fun r => (song, r.bpm))

/-- Modelled from the spec's words, for comparison with the aggregate:
"the BPM of the last row in file order bearing that exercise name". -/
def lastRowBpmSpec (rows : List Row) (song : String) : Option Int :=
  ((rows.filter fun r => r.exercise = song).getLast?).map Row.bpm

/-! ### Stopwatch minute rounding (`src/app.py` lines 176-179) -/

/-- Python's built-in `round` on a (here: rational) number: nearest integer,
ties to the even integer. -/
def pyRound (q : ℚ) : ℤ :=
  if q - ⌊q⌋ < 1 / 2 then ⌊q⌋
  else if q - ⌊q⌋ > 1 / 2 then ⌊q⌋ + 1
  else if ⌊q⌋ % 2 = 0 then ⌊q⌋ else ⌊q⌋ + 1

/-- `round_to_minutes` (`src/app.py` lines 176-179):
`max(1, round(seconds / 60))`. -/
def round_to_minutes (seconds : ℚ) : ℤ :=
  max 1 (pyRound (seconds / 60))

/-! ### CSV serialization (export serves the file verbatim,
`src/app.py` lines 497-504) -/

/-- The canonical header row of `practice_log.csv`. -/
def csvHeader : String :=
  "Date,Exercise/Song,Minutes,BPM,Notes"

/-- One serialized CSV row (fields free of commas/quotes/newlines need no
escaping, matching pandas `to_csv`). -/
def csvLine (r : Row) : String :=
  r.date ++ "," ++ r.exercise ++ "," ++ toString r.minutes ++ ","
    ++ toString r.bpm ++ "," ++ r.notes

/-- The byte contents of the data file holding `rows`
(pandas `to_csv(index=False)`: header line, then one line per row). -/
def csvOf (rows : List Row) : String :=
  String.intercalate "\n" (csvHeader :: rows.map csvLine) ++ "\n"

/-- The export download (`src/app.py` lines 497-504): the data file's bytes,
verbatim; `none` when the file does not exist. -/
def exportBytes (s : FS) : Option String :=
  s.data.map csvOf

/-- Modelled from the spec's words, for comparison with `sanitizeRow`:
"the exercise field capped at 100 characters and the notes field capped at
500 characters". -/
def sanitizeRowSpec (r : Row) : Row :=
  { r with exercise := String.mk (r.exercise.toList.take 100),
           notes := String.mk (r.notes.toList.take 500) }

/-! ### Concrete inputs used to settle the claims -/

/-- A two-entry log for exercise `"A"`: the later date first, so the last row
in file order is the older one. -/
def rowsDateOrder : List Row :=
  [⟨"2024-01-02", "A", 30, 100, ""⟩, ⟨"2024-01-01", "A", 30, 50, ""⟩]

/-- A coerced row whose `Minutes` cell was non-numeric (`"abc"`) while `Date`
and `BPM` coerced fine. -/
def partiallyCoercedRow : CoercedRow :=
  ⟨some "2024-01-01", "Groove", to_numeric "abc", some 60, ""⟩

/-- A 200-character notes field. -/
def longNotes : String :=
  String.mk (List.replicate 200 'x')

/-- A 101-character exercise name. -/
def longExercise : String :=
  String.mk (List.replicate 101 'a')

/-- A one-row table whose exercise name is 101 characters long. -/
def rowsLongExercise : List Row :=
  [⟨"2024-01-01", longExercise, 30, 60, "ok"⟩]

/-- An upload carrying a 200-character notes field. -/
def uploadLongNotes : Upload :=
  ⟨"log.csv", 300, required_columns, [⟨"2024-01-01", "A", 30, 60, longNotes⟩]⟩

/-- An upload whose header lacks the `BPM` column. -/
def uploadNoBpm : Upload :=
  ⟨"log.csv", 10, ["Date", "Exercise/Song", "Minutes", "Notes"], []⟩

/-- An upload with 10001 rows (one over the row ceiling). -/
def uploadTooManyRows : Upload :=
  ⟨"log.csv", 10, required_columns,
    List.replicate 10001 ⟨"2024-01-01", "A", 30, 60, ""⟩⟩

/-- A schema-conforming upload whose text fields are short and non-empty. -/
def uploadShort : Upload :=
  ⟨"log.csv", 50, required_columns, [⟨"2024-01-01", "A", 30, 60, "ok"⟩]⟩

/-- A one-entry log holding exercise `"A"` at 50 BPM. -/
def logWithA : FS :=
  ⟨some [⟨"2024-01-01", "A", 30, 50, "warmup"⟩], none⟩

/-! ### Helper lemmas -/

theorem lexLt_irrefl : ∀ l : List Char, lexLt l l = false
  | [] => rfl
  | a :: as => by simp [lexLt, lexLt_irrefl as]

theorem lexLt_cons_true {a b : Char} {as bs : List Char} :
    lexLt (a :: as) (b :: bs) = true ↔
      a.toNat < b.toNat ∨ (a.toNat = b.toNat ∧ lexLt as bs = true) := by
  simp only [lexLt]
  split_ifs with h1 h2
  · simp only [true_iff]
    exact Or.inl h1
  · simp only [false_iff]
    intro hc
    rcases hc with hc | ⟨hc, _⟩ <;> omega
  · have heq : a.toNat = b.toNat := by omega
    simp [heq]

theorem lexLt_cons_false {a b : Char} {as bs : List Char} :
    lexLt (a :: as) (b :: bs) = false ↔
      b.toNat < a.toNat ∨ (a.toNat = b.toNat ∧ lexLt as bs = false) := by
  simp only [lexLt]
  split_ifs with h1 h2
  · simp only [false_iff]
    intro hc
    rcases hc with hc | ⟨hc, _⟩ <;> omega
  · simp only [true_iff]
    exact Or.inl h2
  · have heq : a.toNat = b.toNat := by omega
    simp [heq]

theorem lexLt_trans :
    ∀ l₁ l₂ l₃ : List Char,
      lexLt l₁ l₂ = true → lexLt l₂ l₃ = true → lexLt l₁ l₃ = true := by
  intro l₁
  induction l₁ with
  | nil =>
    intro l₂ l₃ h12 h23
    cases l₂ with
    | nil => simp [lexLt] at h12
    | cons b bs =>
      cases l₃ with
      | nil => simp [lexLt] at h23
      | cons c cs => simp [lexLt]
  | cons a as ih =>
    intro l₂ l₃ h12 h23
    cases l₂ with
    | nil => simp [lexLt] at h12
    | cons b bs =>
      cases l₃ with
      | nil => simp [lexLt] at h23
      | cons c cs =>
        rw [lexLt_cons_true] at h12 h23 ⊢
        rcases h12 with h12 | ⟨h12, h12t⟩ <;> rcases h23 with h23 | ⟨h23, h23t⟩
        · exact Or.inl (by omega)
        · exact Or.inl (by omega)
        · exact Or.inl (by omega)
        · exact Or.inr ⟨by omega, ih bs cs h12t h23t⟩

theorem lexLt_false_trans :
    ∀ l₁ l₂ l₃ : List Char,
      lexLt l₁ l₂ = false → lexLt l₂ l₃ = false → lexLt l₁ l₃ = false := by
  intro l₁
  induction l₁ with
  | nil =>
    intro l₂ l₃ h12 h23
    cases l₂ with
    | cons b bs => simp [lexLt] at h12
    | nil => exact h23
  | cons a as ih =>
    intro l₂ l₃ h12 h23
    cases l₂ with
    | nil =>
      cases l₃ with
      | nil => simp [lexLt]
      | cons c cs => simp [lexLt] at h23
    | cons b bs =>
      cases l₃ with
      | nil => simp [lexLt]
      | cons c cs =>
        rw [lexLt_cons_false] at h12 h23 ⊢
        rcases h12 with h12 | ⟨h12, h12t⟩ <;> rcases h23 with h23 | ⟨h23, h23t⟩
        · exact Or.inl (by omega)
        · exact Or.inl (by omega)
        · exact Or.inl (by omega)
        · exact Or.inr ⟨by omega, ih bs cs h12t h23t⟩

theorem dateLt_irrefl (s : String) : dateLt s s = false :=
  lexLt_irrefl _

theorem dateLt_false_trans (a b c : String) (h1 : dateLt a b = false)
    (h2 : dateLt b c = false) : dateLt a c = false :=
  lexLt_false_trans _ _ _ h1 h2

theorem pick_eq_or (b r : Row) : pick b r = b ∨ pick b r = r := by
  unfold pick
  split_ifs <;> simp

theorem dateLt_pick_left (b r : Row) : dateLt (pick b r).date b.date = false := by
  unfold pick
  split_ifs with h
  · by_contra hc
    have hrb : dateLt r.date b.date = true := by
      cases hd : dateLt r.date b.date
      · exact absurd hd hc
      · rfl
    have := lexLt_trans _ _ _ hrb h
    simp [dateLt, lexLt_irrefl] at this
  · exact dateLt_irrefl _

theorem dateLt_pick_right (b r : Row) : dateLt (pick b r).date r.date = false := by
  unfold pick
  split_ifs with h
  · exact dateLt_irrefl _
  · simpa using h

theorem foldl_pick_not_lt_acc :
    ∀ (xs : List Row) (x : Row), dateLt (xs.foldl pick x).date x.date = false := by
  intro xs
  induction xs with
  | nil => intro x; exact dateLt_irrefl _
  | cons y ys ih =>
    intro x
    exact dateLt_false_trans _ _ _ (ih (pick x y)) (dateLt_pick_left x y)

theorem foldl_pick_mem :
    ∀ (xs : List Row) (x : Row), xs.foldl pick x = x ∨ xs.foldl pick x ∈ xs := by
  intro xs
  induction xs with
  | nil => intro x; left; rfl
  | cons y ys ih =>
    intro x
    rcases ih (pick x y) with h | h
    · rcases pick_eq_or x y with hp | hp
      · left
        show ys.foldl pick (pick x y) = x
        rw [h, hp]
      · right
        show ys.foldl pick (pick x y) ∈ y :: ys
        rw [h, hp]
        exact List.mem_cons_self _ _
    · right
      exact List.mem_cons_of_mem _ h

theorem foldl_pick_max :
    ∀ (xs : List Row) (x y : Row), y ∈ xs →
      dateLt (xs.foldl pick x).date y.date = false := by
  intro xs
  induction xs with
  | nil => intro x y hy; exact absurd hy (List.not_mem_nil y)
  | cons z zs ih =>
    intro x y hy
    rcases List.mem_cons.mp hy with rfl | hy
    · exact dateLt_false_trans _ _ _ (foldl_pick_not_lt_acc zs (pick x y))
        (dateLt_pick_right x y)
    · exact ih (pick x z) y hy

theorem latestEntry_mem (l : List Row) (r : Row) (h : latestEntry l = some r) :
    r ∈ l := by
  cases l with
  | nil => simp [latestEntry] at h
  | cons x xs =>
    simp only [latestEntry, Option.some.injEq] at h
    rcases foldl_pick_mem xs x with hm | hm
    · rw [← h, hm]; exact List.mem_cons_self _ _
    · rw [← h]; exact List.mem_cons_of_mem _ hm

theorem latestEntry_max (l : List Row) (r : Row) (h : latestEntry l = some r) :
    ∀ y ∈ l, dateLt r.date y.date = false := by
  cases l with
  | nil => simp [latestEntry] at h
  | cons x xs =>
    simp only [latestEntry, Option.some.injEq] at h
    intro y hy
    rcases List.mem_cons.mp hy with rfl | hy
    · rw [← h]; exact foldl_pick_not_lt_acc xs y
    · rw [← h]; exact foldl_pick_max xs x y hy

theorem create_backup_data (s : FS) : (create_backup s).data = s.data := by
  rcases s with ⟨d, b⟩
  cases d <;> rfl

theorem create_backup_backup_of_some (s : FS) (c : List Row) (h : s.data = some c) :
    (create_backup s).backup = some c := by
  rcases s with ⟨d, b⟩
  cases d with
  | none => simp at h
  | some c' =>
    simp only [Option.some.injEq] at h
    rw [h]
    rfl

theorem create_backup_of_none (s : FS) (h : s.data = none) : create_backup s = s := by
  rcases s with ⟨d, b⟩
  cases d with
  | none => rfl
  | some c' => simp at h

theorem saveStep_cases (d u : String) (m b : Int) (n : String) (s : FS) :
    saveStep d u m b n s = (s, false) ∨
      saveStep d u m b n s =
        ({ create_backup s with
            data := some (safe_read_csv s ++
              [⟨d, sanitize_exercise u, m, b, sanitize_notes n⟩]) }, true) := by
  have hsrc : safe_read_csv (create_backup s) = safe_read_csv s := by
    unfold safe_read_csv
    rw [create_backup_data]
  unfold saveStep
  by_cases h1 : pyStrip u = ""
  · rw [if_pos h1]
    exact Or.inl rfl
  · rw [if_neg h1]
    by_cases h2 : m < 1
    · rw [if_pos h2]
      exact Or.inl rfl
    · rw [if_neg h2]
      by_cases h3 : b < 20 ∨ b > 400
      · rw [if_pos h3]
        exact Or.inl rfl
      · rw [if_neg h3, hsrc]
        exact Or.inr rfl

theorem importStep_cases (u : Upload) (s : FS) :
    importStep u s = (s, false) ∨
      importStep u s =
        ({ create_backup s with data := some (u.rows.map sanitizeRow) }, true) := by
  unfold importStep
  by_cases h1 : validate_csv_file u = true
  · rw [if_neg (not_not_intro h1)]
    by_cases h2 : u.rows.length > 10000
    · rw [if_pos h2]
      exact Or.inl rfl
    · rw [if_neg h2]
      by_cases h3 : required_columns.all (fun c => decide (c ∈ u.cols)) = true
      · rw [if_neg (not_not_intro h3)]
        exact Or.inr rfl
      · rw [if_pos h3]
        exact Or.inl rfl
  · rw [if_pos h1]
    exact Or.inl rfl

theorem reachable_backup_none {s : FS} (hr : Reachable s) :
    s.data = none → s.backup = none := by
  induction hr with
  | init => intro _; rfl
  | save d u m b n hr ih =>
    rcases saveStep_cases d u m b n _ with h | h <;> rw [h]
    · exact ih
    · intro hd
      simp at hd
  | imp up hr ih =>
    rcases importStep_cases up _ with h | h <;> rw [h]
    · exact ih
    · intro hd
      simp at hd

theorem create_backup_backup_eq_data {s : FS} (hr : Reachable s) :
    (create_backup s).backup = s.data := by
  cases hd : s.data with
  | some c => exact create_backup_backup_of_some s c hd
  | none =>
    rw [create_backup_of_none s hd]
    exact reachable_backup_none hr hd

theorem pyRound_spec (q : ℚ) :
    |q - (pyRound q : ℚ)| ≤ 1 / 2 ∧
      (|q - (pyRound q : ℚ)| = 1 / 2 → pyRound q % 2 = 0) := by
  have h0 : (0 : ℚ) ≤ q - ⌊q⌋ := by
    have := Int.floor_le q
    linarith
  have h1 : q - ⌊q⌋ < 1 := by
    have := Int.lt_floor_add_one q
    linarith
  have hc : ((⌊q⌋ + 1 : ℤ) : ℚ) = (⌊q⌋ : ℚ) + 1 := by
    push_cast
    ring
  unfold pyRound
  split_ifs with hlt hgt hev
  · constructor
    · rw [abs_of_nonneg h0]
      linarith
    · intro habs
      rw [abs_of_nonneg h0] at habs
      exact absurd habs (by linarith)
  · constructor
    · rw [hc, abs_of_nonpos (by linarith)]
      linarith
    · intro habs
      rw [hc, abs_of_nonpos (by linarith)] at habs
      exact absurd habs (by linarith)
  · have heq : q - ⌊q⌋ = 1 / 2 := le_antisymm (not_lt.mp hgt) (not_lt.mp hlt)
    constructor
    · rw [abs_of_nonneg h0]
      linarith
    · intro _
      exact hev
  · have heq : q - ⌊q⌋ = 1 / 2 := le_antisymm (not_lt.mp hgt) (not_lt.mp hlt)
    constructor
    · rw [hc, abs_of_nonpos (by linarith)]
      linarith
    · intro _
      omega

theorem sanitizeText_length_le (s : String) : (sanitizeText s).length ≤ 100 := by
  unfold sanitizeText
  show (((if s = "" then "nan" else s)).toList.take 100).length ≤ 100
  rw [List.length_take]
  exact min_le_left _ _

theorem sanitizeText_of_ne (s : String) (h : s ≠ "") :
    sanitizeText s = String.mk (s.toList.take 100) := by
  unfold sanitizeText
  rw [if_neg h]

theorem sanitizeText_self (s : String) (h1 : s ≠ "") (h2 : s.length ≤ 100) :
    sanitizeText s = s := by
  unfold sanitizeText
  rw [if_neg h1]
  show String.mk (s.data.take 100) = s
  rw [List.take_of_length_le h2]

theorem sanitizeRow_self (r : Row) (he : r.exercise ≠ "")
    (hel : r.exercise.length ≤ 100) (hn : r.notes ≠ "")
    (hnl : r.notes.length ≤ 100) : sanitizeRow r = r := by
  unfold sanitizeRow
  rw [sanitizeText_self _ he hel, sanitizeText_self _ hn hnl]

theorem get_recent_some (rows : List Row) (bak : Option (List Row)) :
    get_recent_exercises_with_bpm ⟨some rows, bak⟩ =
      if rows.isEmpty then []
      else
        lastN 10 ((uniqueFirst (rows.map Row.exercise)).filterMap fun song =>
          (latestEntry (rows.filter fun r => r.exercise = song)).map
            fun r => (song, r.bpm)) := rfl

/-! ### The claims -/

/-- C1, counterexample: on a log whose two rows for exercise `"A"` carry the
later `Date` first, the aggregate reports 100 BPM — the BPM of the row with
the maximal `Date` — while the last row in file order carries 50 BPM.  So the
aggregate does NOT return the BPM of the last row in file order regardless of
the `Date` values. -/
theorem c1_counterexample :
    get_recent_exercises_with_bpm ⟨some rowsDateOrder, none⟩ = [("A", 100)] ∧
    lastRowBpmSpec rowsDateOrder "A" = some 50 ∧
    get_recent_exercises_with_bpm ⟨some rowsDateOrder, none⟩ ≠ [("A", 50)] := by
  refine ⟨by decide, by decide, by decide⟩

/-- C1 (amended): each (exercise, bpm) pair the aggregate reports is the BPM
of a row of the log bearing that exercise name whose `Date` string is maximal
among that exercise's rows — the most recent by `Date`, not the last row in
file order. -/
theorem c1_most_recent_bpm_is_max_date (s : FS) (rows : List Row)
    (hs : s.data = some rows) (p : String × Int)
    (hp : p ∈ get_recent_exercises_with_bpm s) :
    ∃ r ∈ rows, r.exercise = p.1 ∧ r.bpm = p.2 ∧
      ∀ r' ∈ rows, r'.exercise = p.1 → dateLt r.date r'.date = false := by
  rcases s with ⟨d, bak⟩
  have hd : d = some rows := hs
  subst hd
  rw [get_recent_some] at hp
  by_cases hemp : rows.isEmpty
  · rw [if_pos hemp] at hp
    exact absurd hp (List.not_mem_nil p)
  · rw [if_neg hemp] at hp
    unfold lastN at hp
    have hp' := List.drop_subset _ _ hp
    obtain ⟨song, hsong, hf⟩ := List.mem_filterMap.mp hp'
    obtain ⟨r, hle, hpr⟩ := Option.map_eq_some'.mp hf
    have hmem := latestEntry_mem _ _ hle
    have hmax := latestEntry_max _ _ hle
    have hrf := List.mem_filter.mp hmem
    have hex : r.exercise = song := of_decide_eq_true hrf.2
    refine ⟨r, hrf.1, ?_, ?_, ?_⟩
    · rw [← hpr, hex]
    · rw [← hpr]
    · intro r' hr' hx
      apply hmax
      rw [List.mem_filter]
      refine ⟨hr', decide_eq_true ?_⟩
      rw [hx, ← hpr]

/-- C1, witness for the amended theorem at the concrete two-row log. -/
theorem c1_witness :
    (⟨some rowsDateOrder, none⟩ : FS).data = some rowsDateOrder ∧
    ("A", (100 : Int)) ∈ get_recent_exercises_with_bpm ⟨some rowsDateOrder, none⟩ ∧
    (∃ r ∈ rowsDateOrder, r.exercise = "A" ∧ r.bpm = 100 ∧
      ∀ r' ∈ rowsDateOrder, r'.exercise = "A" → dateLt r.date r'.date = false) :=
  ⟨rfl, by decide,
    c1_most_recent_bpm_is_max_date ⟨some rowsDateOrder, none⟩ rowsDateOrder rfl
      ("A", 100) (by decide)⟩

/-- C2, counterexample: a row whose `Minutes` cell is the non-numeric `"abc"`
(coerced to NaN) but whose `Date` and `BPM` coerce fine is KEPT by the
cleanup, while the claim says every row failing any coercion is dropped. -/
theorem c2_counterexample :
    to_numeric "abc" = none ∧
    cleanupLoad [partiallyCoercedRow] = [partiallyCoercedRow] ∧
    cleanupLoadSpec [partiallyCoercedRow] = [] ∧
    cleanupLoad [partiallyCoercedRow] ≠ cleanupLoadSpec [partiallyCoercedRow] := by
  refine ⟨by decide, by decide, by decide, by decide⟩

/-- C2 (amended): the load cleanup drops a row only when ALL THREE of its
`Date`, `Minutes` and `BPM` cells failed coercion; a row with at least one
coerced cell among those is kept (so in particular every fully valid row is
kept, but partially corrupt rows survive too). -/
theorem c2_cleanup_drops_only_fully_failed (rows : List CoercedRow)
    (r : CoercedRow) :
    r ∈ cleanupLoad rows ↔
      r ∈ rows ∧ (r.date.isSome ∨ r.minutes.isSome ∨ r.bpm.isSome) := by
  unfold cleanupLoad
  rw [List.mem_filter]
  simp only [Bool.or_eq_true]
  tauto

set_option maxRecDepth 4000 in
/-- C3, counterexample: a 200-character notes field is truncated by the import
sanitization to 100 characters, not to the 500-character cap the claim
states (under which a 200-character note would survive intact). -/
theorem c3_counterexample :
    (sanitizeRow ⟨"2024-01-01", "A", 30, 60, longNotes⟩).notes.length = 100 ∧
    (sanitizeRowSpec ⟨"2024-01-01", "A", 30, 60, longNotes⟩).notes = longNotes ∧
    longNotes.length = 200 ∧
    sanitizeRow ⟨"2024-01-01", "A", 30, 60, longNotes⟩ ≠
      sanitizeRowSpec ⟨"2024-01-01", "A", 30, 60, longNotes⟩ := by
  refine ⟨by decide, by decide, by decide, by decide⟩

/-- C3 (amended): an accepted import is never rejected for oversized text; it
truncates, but caps BOTH the `Exercise/Song` field AND the `Notes` field at
100 characters (and an empty text cell becomes the string `"nan"` via
`astype(str)`). -/
theorem c3_import_truncates_both_at_100 (u : Upload) (s s' : FS)
    (h : importStep u s = (s', true)) :
    s'.data = some (u.rows.map sanitizeRow) ∧
    ∀ r ∈ u.rows,
      (sanitizeRow r).exercise.length ≤ 100 ∧
      (sanitizeRow r).notes.length ≤ 100 ∧
      (r.exercise ≠ "" →
        (sanitizeRow r).exercise = String.mk (r.exercise.toList.take 100)) ∧
      (r.notes ≠ "" →
        (sanitizeRow r).notes = String.mk (r.notes.toList.take 100)) := by
  constructor
  · rcases importStep_cases u s with hc | hc
    · rw [hc] at h
      simp at h
    · rw [hc] at h
      injection h with h1 h2
      rw [← h1]
  · intro r _
    exact ⟨sanitizeText_length_le _, sanitizeText_length_le _,
      fun hne => sanitizeText_of_ne _ hne, fun hne => sanitizeText_of_ne _ hne⟩

/-- C3, witness for the amended theorem at a concrete accepted upload. -/
theorem c3_witness :
    importStep uploadLongNotes ⟨none, none⟩ =
      ((⟨some (uploadLongNotes.rows.map sanitizeRow), none⟩ : FS), true) ∧
    ((⟨some (uploadLongNotes.rows.map sanitizeRow), none⟩ : FS).data =
        some (uploadLongNotes.rows.map sanitizeRow) ∧
      ∀ r ∈ uploadLongNotes.rows,
        (sanitizeRow r).exercise.length ≤ 100 ∧
        (sanitizeRow r).notes.length ≤ 100 ∧
        (r.exercise ≠ "" →
          (sanitizeRow r).exercise = String.mk (r.exercise.toList.take 100)) ∧
        (r.notes ≠ "" →
          (sanitizeRow r).notes = String.mk (r.notes.toList.take 100))) :=
  ⟨by decide,
    c3_import_truncates_both_at_100 uploadLongNotes ⟨none, none⟩
      ⟨some (uploadLongNotes.rows.map sanitizeRow), none⟩ (by decide)⟩

/-- C4: for positive elapsed seconds, `round_to_minutes` is the
round-half-to-even rounding of `elapsed / 60` floored at 1 minute: the result
is `max 1` of an integer within 1/2 of `elapsed / 60` that is even whenever
the distance is exactly 1/2; and 90 seconds yield 2 minutes. -/
theorem c4_round_to_minutes (s : ℚ) (h : 0 < s) :
    round_to_minutes s = max 1 (pyRound (s / 60)) ∧
    1 ≤ round_to_minutes s ∧
    |s / 60 - (pyRound (s / 60) : ℚ)| ≤ 1 / 2 ∧
    (|s / 60 - (pyRound (s / 60) : ℚ)| = 1 / 2 → pyRound (s / 60) % 2 = 0) ∧
    round_to_minutes 90 = 2 := by
  refine ⟨rfl, le_max_left _ _, (pyRound_spec _).1, (pyRound_spec _).2, ?_⟩
  unfold round_to_minutes pyRound
  norm_num

/-- C4, witness at 90 seconds. -/
theorem c4_witness :
    (0 : ℚ) < 90 ∧
    (round_to_minutes 90 = max 1 (pyRound ((90 : ℚ) / 60)) ∧
      1 ≤ round_to_minutes 90 ∧
      |(90 : ℚ) / 60 - (pyRound ((90 : ℚ) / 60) : ℚ)| ≤ 1 / 2 ∧
      (|(90 : ℚ) / 60 - (pyRound ((90 : ℚ) / 60) : ℚ)| = 1 / 2 →
        pyRound ((90 : ℚ) / 60) % 2 = 0) ∧
      round_to_minutes 90 = 2) :=
  ⟨by norm_num, c4_round_to_minutes 90 (by norm_num)⟩

/-- C5: from any state reachable by the app's operations, every successful
mutating operation (validated append, or accepted import replace) leaves the
backup file holding exactly the data file's contents from immediately before
the operation. -/
theorem c5_backup_holds_prior_contents (s : FS) (hr : Reachable s) :
    (∀ d u : String, ∀ m b : Int, ∀ n : String, ∀ s' : FS,
        saveStep d u m b n s = (s', true) → s'.backup = s.data) ∧
    (∀ up : Upload, ∀ s' : FS,
        importStep up s = (s', true) → s'.backup = s.data) := by
  constructor
  · intro d u m b n s' h
    rcases saveStep_cases d u m b n s with hc | hc
    · rw [hc] at h
      simp at h
    · rw [hc] at h
      injection h with h1 h2
      rw [← h1]
      exact create_backup_backup_eq_data hr
  · intro up s' h
    rcases importStep_cases up s with hc | hc
    · rw [hc] at h
      simp at h
    · rw [hc] at h
      injection h with h1 h2
      rw [← h1]
      exact create_backup_backup_eq_data hr

/-- C5, witness: after one successful save from the fresh state, a second
successful save leaves the backup holding the one-row log from before it. -/
theorem c5_witness :
    Reachable logWithA ∧
    (saveStep "2024-01-02" "A" 25 60 "ok" logWithA).1.backup = logWithA.data := by
  have hreach : Reachable logWithA :=
    Reachable.save "2024-01-01" "A" 30 50 "warmup" Reachable.init
  refine ⟨hreach, ?_⟩
  exact (c5_backup_holds_prior_contents logWithA hreach).1 "2024-01-02" "A" 25 60
    "ok" (saveStep "2024-01-02" "A" 25 60 "ok" logWithA).1 (by decide)

set_option maxRecDepth 8000 in
/-- C6, counterexample: importing a schema-conforming table whose exercise
name is 101 characters long and then exporting does not return the original
bytes — the exercise field was truncated to 100 characters. -/
theorem c6_counterexample :
    (importStep ⟨"log.csv", 200, required_columns, rowsLongExercise⟩
      ⟨none, none⟩).2 = true ∧
    exportBytes (importStep ⟨"log.csv", 200, required_columns, rowsLongExercise⟩
        ⟨none, none⟩).1 = some (csvOf (rowsLongExercise.map sanitizeRow)) ∧
    csvOf (rowsLongExercise.map sanitizeRow) ≠ csvOf rowsLongExercise := by
  refine ⟨by decide, by decide, by decide⟩

/-- C6 (amended): the import/export round trip returns the original table's
bytes exactly when every text field is non-empty and at most 100 characters;
the import's `astype(str).str[:100]` sanitization otherwise changes the
bytes. -/
theorem c6_round_trip_bounded (u : Upload) (s s' : FS)
    (h : importStep u s = (s', true))
    (hw : ∀ r ∈ u.rows, r.exercise ≠ "" ∧ r.exercise.length ≤ 100 ∧
      r.notes ≠ "" ∧ r.notes.length ≤ 100) :
    exportBytes s' = some (csvOf u.rows) := by
  rcases importStep_cases u s with hc | hc
  · rw [hc] at h
    simp at h
  · rw [hc] at h
    injection h with h1 h2
    rw [← h1]
    show some (csvOf (u.rows.map sanitizeRow)) = some (csvOf u.rows)
    have hmap : u.rows.map sanitizeRow = u.rows := by
      have hcg : u.rows.map sanitizeRow = u.rows.map id :=
        List.map_congr_left fun r hr => by
          obtain ⟨he, hel, hn, hnl⟩ := hw r hr
          exact sanitizeRow_self r he hel hn hnl
      rw [hcg, List.map_id]
    rw [hmap]

/-- C6, witness for the amended round trip at a short, non-empty table. -/
theorem c6_witness :
    importStep uploadShort ⟨none, none⟩ =
      ((⟨some (uploadShort.rows.map sanitizeRow), none⟩ : FS), true) ∧
    (∀ r ∈ uploadShort.rows, r.exercise ≠ "" ∧ r.exercise.length ≤ 100 ∧
      r.notes ≠ "" ∧ r.notes.length ≤ 100) ∧
    exportBytes (⟨some (uploadShort.rows.map sanitizeRow), none⟩ : FS) =
      some (csvOf uploadShort.rows) :=
  ⟨by decide, by decide,
    c6_round_trip_bounded uploadShort ⟨none, none⟩
      ⟨some (uploadShort.rows.map sanitizeRow), none⟩ (by decide) (by decide)⟩

/-- C7: the import handler rejects an upload whose columns lack any of the
five required columns (in particular `BPM`), and rejects an upload with 10001
rows; in both cases the returned state is the input state — the on-disk file
is unchanged. -/
theorem c7_import_rejects (u : Upload) (s : FS) :
    (∀ c ∈ required_columns, c ∉ u.cols → importStep u s = (s, false)) ∧
    (u.rows.length = 10001 → importStep u s = (s, false)) := by
  constructor
  · intro c hc hb
    unfold importStep
    by_cases h1 : validate_csv_file u = true
    · rw [if_neg (not_not_intro h1)]
      by_cases h2 : u.rows.length > 10000
      · rw [if_pos h2]
      · rw [if_neg h2]
        have hall : ¬ required_columns.all (fun c => decide (c ∈ u.cols)) = true := by
          intro hall
          have hmem := List.all_eq_true.mp hall c hc
          exact hb (of_decide_eq_true hmem)
        rw [if_pos hall]
    · rw [if_pos h1]
  · intro hlen
    unfold importStep
    by_cases h1 : validate_csv_file u = true
    · rw [if_neg (not_not_intro h1), if_pos (by omega : u.rows.length > 10000)]
    · rw [if_pos h1]

/-- C7, witness: a concrete upload missing `BPM` and a concrete 10001-row
upload are both rejected with the state unchanged. -/
theorem c7_witness :
    ("BPM" ∉ uploadNoBpm.cols ∧
      importStep uploadNoBpm logWithA = (logWithA, false)) ∧
    (uploadTooManyRows.rows.length = 10001 ∧
      importStep uploadTooManyRows logWithA = (logWithA, false)) :=
  ⟨⟨by decide,
      (c7_import_rejects uploadNoBpm logWithA).1 "BPM" (by decide) (by decide)⟩,
    ⟨by
      show (List.replicate 10001 (⟨"2024-01-01", "A", 30, 60, ""⟩ : Row)).length
        = 10001
      rw [List.length_replicate],
      (c7_import_rejects uploadTooManyRows logWithA).2
        (by
          show (List.replicate 10001
            (⟨"2024-01-01", "A", 30, 60, ""⟩ : Row)).length = 10001
          rw [List.length_replicate])⟩⟩

/-- C8: the save handler rejects a submission whose exercise name is blank
after stripping, a submission with 0 minutes, and a submission with 401 BPM;
in each case it reports failure and returns the state unchanged. -/
theorem c8_save_rejects (d u : String) (m b : Int) (n : String) (s : FS) :
    (pyStrip u = "" → saveStep d u m b n s = (s, false)) ∧
    saveStep d u 0 b n s = (s, false) ∧
    saveStep d u m 401 n s = (s, false) := by
  refine ⟨?_, ?_, ?_⟩
  · intro hu
    unfold saveStep
    rw [if_pos hu]
  · unfold saveStep
    by_cases h1 : pyStrip u = ""
    · rw [if_pos h1]
    · rw [if_neg h1, if_pos (by omega : (0 : Int) < 1)]
  · unfold saveStep
    by_cases h1 : pyStrip u = ""
    · rw [if_pos h1]
    · rw [if_neg h1]
      by_cases h2 : m < 1
      · rw [if_pos h2]
      · rw [if_neg h2, if_pos (Or.inr (by omega : (401 : Int) > 400))]

/-- C8, witness: whitespace-only exercise, 0 minutes, and 401 BPM are each
rejected on a concrete log. -/
theorem c8_witness :
    pyStrip "   " = "" ∧
    saveStep "2024-01-01" "   " 30 60 "" logWithA = (logWithA, false) ∧
    saveStep "2024-01-01" "Single Stroke Roll" 0 60 "" logWithA =
      (logWithA, false) ∧
    saveStep "2024-01-01" "Single Stroke Roll" 30 401 "" logWithA =
      (logWithA, false) :=
  ⟨by decide,
    (c8_save_rejects "2024-01-01" "   " 30 60 "" logWithA).1 (by decide),
    (c8_save_rejects "2024-01-01" "Single Stroke Roll" 30 60 "" logWithA).2.1,
    (c8_save_rejects "2024-01-01" "Single Stroke Roll" 30 60 "" logWithA).2.2⟩

/-- C9: a missing data file loads as the empty log, not as an error. -/
theorem c9_missing_file_reads_empty (s : FS) (h : s.data = none) :
    safe_read_csv s = [] := by
  unfold safe_read_csv
  rw [h]
  rfl

/-- C9, witness at the fresh state. -/
theorem c9_witness :
    (⟨none, none⟩ : FS).data = none ∧ safe_read_csv ⟨none, none⟩ = [] :=
  ⟨rfl, c9_missing_file_reads_empty ⟨none, none⟩ rfl⟩

/-- C10: every successful save leaves all existing rows unchanged and appends
exactly one new row at the end — the new state's table is the old table plus
the sanitized new entry, nothing else (the duplicate-song "Updated BPM"
branch changes no data). -/
theorem c10_append_preserves_rows (d u : String) (m b : Int) (n : String)
    (s s' : FS) (h : saveStep d u m b n s = (s', true)) :
    s'.data = some (safe_read_csv s ++
      [⟨d, sanitize_exercise u, m, b, sanitize_notes n⟩]) := by
  rcases saveStep_cases d u m b n s with hc | hc
  · rw [hc] at h
    simp at h
  · rw [hc] at h
    injection h with h1 h2
    rw [← h1]

/-- C10, witness: appending `"A"` at 60 BPM to a log already holding `"A"` at
50 BPM (the case where the source shows its "Updated BPM" message) keeps the
old row byte-for-byte and appends exactly the new one. -/
theorem c10_witness :
    saveStep "2024-01-02" "A" 25 60 "ok" logWithA =
      ((⟨some [⟨"2024-01-01", "A", 30, 50, "warmup"⟩,
          ⟨"2024-01-02", "A", 25, 60, "ok"⟩],
        some [⟨"2024-01-01", "A", 30, 50, "warmup"⟩]⟩ : FS), true) ∧
    (⟨some [⟨"2024-01-01", "A", 30, 50, "warmup"⟩,
        ⟨"2024-01-02", "A", 25, 60, "ok"⟩],
      some [⟨"2024-01-01", "A", 30, 50, "warmup"⟩]⟩ : FS).data =
      some (safe_read_csv logWithA ++
        [⟨"2024-01-02", sanitize_exercise "A", 25, 60, sanitize_notes "ok"⟩]) :=
  ⟨by decide,
    c10_append_preserves_rows "2024-01-02" "A" 25 60 "ok" logWithA
      ⟨some [⟨"2024-01-01", "A", 30, 50, "warmup"⟩,
        ⟨"2024-01-02", "A", 25, 60, "ok"⟩],
      some [⟨"2024-01-01", "A", 30, 50, "warmup"⟩]⟩ (by decide)⟩

end Drumlog

